import Mathlib

/-
Verification development for the change-triggered, fingerprint-cached valuation
pipeline in `flows/advanced_pipeline.py`.

The Python code works on pandas DataFrames loaded from CSV files.  The embedding
models a DataFrame as a Lean structure holding a list of typed rows plus the
frame-level facts the code branches on: whether the optional `symbol` / `shares`
columns are present (`"symbol" not in df.columns` is a column-level test in
pandas) and whether the `date` column has already been converted to datetime
dtype (`pd.to_datetime` assignment mutates the frame it is applied to).
Dates are modelled as `Nat` (the order-isomorphic image of parsed timestamps),
money and share quantities as `ℚ` (the arithmetic performed — products and
finite sums — is exact on the values involved).  A missing cell (pandas `NaN`)
in the `shares` column is `Option.none`.
-/

/-- One row of the transactions CSV (`data/raw/transactions.csv`).  `date` and
`amount` are always present; `shares` is `none` where the cell is NaN.  The
`symbol`/`shares` fields are only meaningful when the owning frame records the
corresponding column as present. -/
structure TxRow where
  date : Nat
  symbol : String
  shares : Option ℚ
  amount : ℚ
deriving Repr, DecidableEq

/-- A loaded transactions DataFrame.  `hasSymbol` / `hasShares` record column
presence (`"symbol" in df.columns`); `dateIsDatetime` records whether the
`date` column has been converted by `pd.to_datetime` (false for a freshly
loaded CSV). -/
structure TxFrame where
  hasSymbol : Bool
  hasShares : Bool
  dateIsDatetime : Bool
  rows : List TxRow
deriving Repr, DecidableEq

/-- One row of the market CSV (`symbol,date,close`). -/
structure MktRow where
  symbol : String
  date : Nat
  close : ℚ
deriving Repr, DecidableEq

/-- A loaded market DataFrame; `dateIsDatetime` as in `TxFrame`. -/
structure MktFrame where
  dateIsDatetime : Bool
  rows : List MktRow
deriving Repr, DecidableEq

/-- Effective symbol of a transaction row after the defaulting step
`if "symbol" not in df.columns: df["symbol"] = "CASH"`
(advanced_pipeline.py lines 72-73). -/
def symbolCol (tx : TxFrame) (r : TxRow) : String :=
  if tx.hasSymbol then r.symbol else "CASH"

/-- Effective shares cell of a transaction row after the defaulting step
`if "shares" not in df.columns: df["shares"] = np.where(df["amount"] > 0, 0, 0)`
(lines 74-75).  Both branches of the `np.where` are `0`, so an absent column
becomes the constant `0`; a present column keeps its cells (NaN included). -/
def sharesCol (tx : TxFrame) (r : TxRow) : Option ℚ :=
  if tx.hasShares then r.shares else some 0

/-- The comparison used by `market.sort_values(["symbol", "date"])`:
lexicographic (symbol, date).  pandas' multi-column `sort_values` is a stable
lexicographic sort, which the embedding realises as `List.mergeSort` with this
total preorder. -/
def mktLe (a b : MktRow) : Bool :=
  decide (a.symbol < b.symbol) || (a.symbol == b.symbol && decide (a.date ≤ b.date))

/-- Equality of the `groupby(["symbol", "date"])` grouping key of two market
rows. -/
def sameKey (a b : MktRow) : Bool :=
  a.symbol == b.symbol && a.date == b.date

/-- `groupby(["symbol", "date"], as_index=False)["close"].last()` applied to a
key-sorted list: of each run of rows sharing a grouping key, keep the last. -/
def groupLast : List MktRow → List MktRow
  | [] => []
  | a :: rest =>
    match rest with
    | [] => [a]
    | b :: _ => if sameKey a b then groupLast rest else a :: groupLast rest

/-- The `last_close` table of `compute_portfolio_valuation` (lines 77-81):
stable sort by (symbol, date), then one row per distinct (symbol, date) pair
holding the last close of the group. -/
def lastCloseTable (market : List MktRow) : List MktRow :=
  groupLast (market.mergeSort mktLe)

/-- Join predicate of `pd.merge(df, last_close, how="left", on=["symbol", "date"])`:
does market row `m` carry the key `(s, d)`. -/
def keyMatch (s : String) (d : Nat) (m : MktRow) : Bool :=
  m.symbol == s && m.date == d

/-- Close looked up for key `(s, d)` by the left join against `last_close`
(line 83).  The table has one row per key, so the join contributes at most one
match per transaction row; `none` models the NaN produced for an unmatched
left row. -/
def lookupClose (table : List MktRow) (s : String) (d : Nat) : Option ℚ :=
  (table.find? (keyMatch s d)).map MktRow.close

/-- Per-row `position_value` (line 84):
`merged["shares"].fillna(0) * merged["close"].fillna(1.0)`. -/
def position_value (tx : TxFrame) (market : List MktRow) (r : TxRow) : ℚ :=
  (sharesCol tx r).getD 0 *
    (lookupClose (lastCloseTable market) (symbolCol tx r) r.date).getD 1

/-- Comparison for the date sort of the output series. -/
def dateLe (a b : Nat) : Bool :=
  decide (a ≤ b)

/-- `compute_portfolio_valuation` (lines 59-92).  `tx_hash`/`mkt_hash` are the
cache-key arguments of the task; they do not influence the computation.
The Python function also acts on its pandas arguments: `tx` is copied before
any modification (`df = tx.copy()`, line 67) and is therefore returned
unchanged, while `market` is modified in place by
`market["date"] = pd.to_datetime(market["date"])` (line 69), which converts its
date column to datetime dtype; the returned `MktFrame` records that effect.
The first component is `daily_value` (lines 86-90): group the merged rows by
date, sum `position_value`, one row per distinct date sorted ascending (pandas
`groupby` emits sorted keys, and `sort_values("date")` keeps them so). -/
def compute_portfolio_valuation (tx : TxFrame) (market : MktFrame)
    (tx_hash mkt_hash : String) :
    List (Nat × ℚ) × TxFrame × MktFrame :=
  ((((tx.rows.map TxRow.date).dedup).mergeSort dateLe).map
      (fun dd => (dd,
        (((tx.rows.map (fun r => (r.date, position_value tx market.rows r))).filter
            (fun x => x.1 == dd)).map Prod.snd).sum)),
   tx, { market with dateIsDatetime := true })

/-- Python's `str.strip()`: remove leading and trailing whitespace.  Embedded
structurally (rather than via `String.trim`) so that concrete instances reduce
in the kernel; it agrees with `.strip()` on the hex-digest strings the
component stores. -/
def pyStrip (s : String) : String :=
  String.mk (((s.data.dropWhile Char.isWhitespace).reverse.dropWhile
    Char.isWhitespace).reverse)

/-- The on-disk state directory of `was_data_changed`: one text file per state
key under `data/processed/.state/`, modelled as an association list from key to
file contents.  A write is modelled as a cons (later entries shadow earlier
ones, as an overwrite does). -/
abbrev ChangeState : Type :=
  List (String × String)

/-- The `prev` value read by `was_data_changed` (line 120):
`state_file.read_text().strip() if state_file.exists() else ""`. -/
def storedFingerprint (st : ChangeState) (state_key : String) : String :=
  match List.lookup state_key st with
  | some contents => pyStrip contents
  | none => ""

/-- `was_data_changed` (lines 117-124).  Returns the `changed` flag together
with the state directory after the call: the new fingerprint is written iff it
differs from the stored one; otherwise the state is left untouched. -/
def was_data_changed (fingerprint : String) (state_key : String)
    (st : ChangeState) : Bool × ChangeState :=
  let prev := storedFingerprint st state_key
  let changed := prev != fingerprint
  (changed, if changed then (state_key, fingerprint) :: st else st)

/-- `fingerprint_inputs` (lines 110-115).  `sha256hex` abstracts
`hashlib.sha256(...).hexdigest()` over the accumulated update bytes and
`hash_file` abstracts `_hash_file` (lines 28-33), the per-file SHA-256 of the
file's byte content — for fixed disk contents a function of the path.  The
paths are sorted (`sorted(paths)`, lexicographically on the path string)
before the per-file digests are concatenated and digested. -/
def fingerprint_inputs (sha256hex : String → String) (hash_file : String → String)
    (paths : List String) : String :=
  sha256hex (String.join ((paths.mergeSort (fun a b => decide (a ≤ b))).map hash_file))

/-- `data_quality_check` (lines 45-51) on a loaded frame, given its row count
and its average per-column NA fraction (`df.isna().mean().mean()`).  The
`df is None` arm cannot arise in the embedding (frames are values). -/
def data_quality_check (numRows : Nat) (naFrac : ℚ) (min_rows : Nat) :
    Bool × String :=
  if numRows < min_rows then (false, "Too few rows")
  else if 1/5 < naFrac then (false, "More than 20% NA across the frame")
  else (true, "ok")

/-- Number of columns of a transactions frame: `date` and `amount` always,
plus `symbol` and `shares` when present. -/
def txColCount (tx : TxFrame) : Nat :=
  2 + (if tx.hasSymbol then 1 else 0) + (if tx.hasShares then 1 else 0)

/-- `tx.isna().mean().mean()` for a transactions frame: in the embedding only
`shares` cells can be NaN, so the average per-column NA fraction is the
NA fraction of the `shares` column (when present) divided by the column
count. -/
def txNaFrac (tx : TxFrame) : ℚ :=
  (if tx.hasShares
    then ((tx.rows.filter (fun r => r.shares == none)).length : ℚ) / tx.rows.length
    else 0) / txColCount tx

/-- `market.isna().mean().mean()`: no optional cells in the embedding. -/
def mktNaFrac (_market : MktFrame) : ℚ :=
  0

/-- The on-disk effects the flow can have: the state directory and the
persisted valuation output `data/processed/portfolio_metrics.parquet`. -/
structure PipelineState where
  changeState : ChangeState
  portfolioOut : Option (List (Nat × ℚ))
deriving Repr, DecidableEq

/-- The compute-and-persist tail of the flow (lines 182-190).  `downstreamOk`
models whether the valuation / persistence stage completes or raises (an
exception escaping `compute_portfolio_valuation` or `persist_portfolio`); on
failure the flow run errors without writing the output file. -/
def runValuation (tx : TxFrame) (market : MktFrame) (tx_hash mkt_hash : String)
    (downstreamOk : Bool) (st : PipelineState) :
    Except String String × PipelineState :=
  if downstreamOk then
    (Except.ok "saved",
     { st with
        portfolioOut := some (compute_portfolio_valuation tx market tx_hash mkt_hash).1 })
  else (Except.error "downstream failure", st)

/-- `advanced_data_pipeline` (lines 145-190), from the point where both inputs
are loaded.  `fingerprint` is the value of `fingerprint_inputs` on the two
input files, and `tx_hash`/`mkt_hash` the per-file hashes (lines 183-184);
they are parameters because the embedding does not model the byte-level file
system.  The pair returned is the flow's outcome together with the on-disk
state after the run — state changes made before a failure persist. -/
def advanced_data_pipeline (tx : TxFrame) (market : MktFrame)
    (fingerprint : String) (tx_hash mkt_hash : String) (state_key : String)
    (require_change : Bool) (downstreamOk : Bool) (st : PipelineState) :
    Except String String × PipelineState :=
  let qtx := data_quality_check tx.rows.length (txNaFrac tx) 50
  let qmk := data_quality_check market.rows.length (mktNaFrac market) 50
  if !qtx.1 || !qmk.1 then
    (Except.error ("Data quality failed: tx=" ++ qtx.2 ++ "; market=" ++ qmk.2), st)
  else if require_change then
    let wc := was_data_changed fingerprint state_key st.changeState
    if !wc.1 then
      (Except.ok "skipped (no change)", { st with changeState := wc.2 })
    else
      runValuation tx market tx_hash mkt_hash downstreamOk
        { st with changeState := wc.2 }
  else
    runValuation tx market tx_hash mkt_hash downstreamOk st

/-- A result cache as the spec prescribes for the valuation task: a mapping
from cache key to (result, expiry instant), times in seconds. -/
abbrev CacheStore : Type :=
  List (String × (List (Nat × ℚ) × Nat))

/-- The cache key of the valuation task (line 56):
`f"valuation_{p['tx_hash']}_{p['mkt_hash']}"`. -/
def valuation_cache_key (tx_hash mkt_hash : String) : String :=
  "valuation_" ++ tx_hash ++ "_" ++ mkt_hash

/-- `cache_expiration=timedelta(hours=12)` (line 57), in seconds. -/
def CACHE_EXPIRATION_SECONDS : Nat :=
  12 * 3600

/-- Modelled from the spec: the task-cache runtime that honours the
`cache_key_fn` / `cache_expiration` declaration on `compute_portfolio_valuation`
(lines 53-58) lives in the orchestration framework, not in this repository's
source; the spec prescribes "a cache abstraction mapping key → (result,
expiry)" that reuses a stored result while `now` is before the expiry and
recomputes once the TTL has lapsed.  `computeCount` counts actual executions
of the join (the spec's "injected counter").  Returns the result, the cache
after the call, and the updated counter. -/
def cached_compute_portfolio_valuation (tx : TxFrame) (market : MktFrame)
    (tx_hash mkt_hash : String) (now : Nat) (cache : CacheStore)
    (computeCount : Nat) : List (Nat × ℚ) × CacheStore × Nat :=
  let key := valuation_cache_key tx_hash mkt_hash
  match List.lookup key cache with
  | some (res, expiry) =>
    if now < expiry then (res, cache, computeCount)
    else
      ((compute_portfolio_valuation tx market tx_hash mkt_hash).1,
       (key, ((compute_portfolio_valuation tx market tx_hash mkt_hash).1,
              now + CACHE_EXPIRATION_SECONDS)) :: cache,
       computeCount + 1)
  | none =>
    ((compute_portfolio_valuation tx market tx_hash mkt_hash).1,
     (key, ((compute_portfolio_valuation tx market tx_hash mkt_hash).1,
            now + CACHE_EXPIRATION_SECONDS)) :: cache,
     computeCount + 1)


/-- Concrete transactions frame used to instantiate theorems: 50 rows, no
`shares` column (its values then default to 0 as in the source), `symbol`
column present. -/
def txExample : TxFrame :=
  { hasSymbol := true, hasShares := false, dateIsDatetime := false,
    rows := List.replicate 50 { date := 1, symbol := "AAPL", shares := some 10, amount := 100 } }

/-- Concrete market frame used to instantiate theorems. -/
def mktExample : MktFrame :=
  { dateIsDatetime := false,
    rows := List.replicate 50 { symbol := "AAPL", date := 1, close := 150 } }

/-- A transaction row carrying only date and amount data (as in the spec's
sentinel-fallback example `{date: 2024-01-03, amount: 20}`). -/
def rowNoCols : TxRow :=
  { date := 3, symbol := "", shares := none, amount := 20 }

/-- A transactions frame whose CSV had neither a `symbol` nor a `shares`
column. -/
def txNoCols : TxFrame :=
  { hasSymbol := false, hasShares := false, dateIsDatetime := false,
    rows := [rowNoCols] }

/-- The spec's missing-price example row: `{date: 2024-01-02, symbol: "AAPL",
shares: 5}`. -/
def rowC7 : TxRow :=
  { date := 2, symbol := "AAPL", shares := some 5, amount := 0 }

/-- A transactions frame holding `rowC7`, with both optional columns
present. -/
def txC7 : TxFrame :=
  { hasSymbol := true, hasShares := true, dateIsDatetime := false,
    rows := [rowC7] }

/-- Pipeline state whose state directory already stores the fingerprint
"abc" for key "tx+mkt" and which has no persisted output yet. -/
def stExample : PipelineState :=
  { changeState := [("tx+mkt", "abc")], portfolioOut := none }

/-- Pipeline state with an empty state directory and no persisted output. -/
def stFresh : PipelineState :=
  { changeState := [], portfolioOut := none }

theorem mktLe_iff (a b : MktRow) :
    mktLe a b = true ↔ a.symbol < b.symbol ∨ (a.symbol = b.symbol ∧ a.date ≤ b.date) := by
  simp [mktLe]

theorem sameKey_iff (a b : MktRow) :
    sameKey a b = true ↔ a.symbol = b.symbol ∧ a.date = b.date := by
  simp [sameKey]

theorem keyMatch_iff (s : String) (d : Nat) (m : MktRow) :
    keyMatch s d m = true ↔ m.symbol = s ∧ m.date = d := by
  simp [keyMatch]

theorem mktLe_trans (a b c : MktRow) (hab : mktLe a b = true) (hbc : mktLe b c = true) :
    mktLe a c = true := by
  rw [mktLe_iff] at hab hbc ⊢
  rcases hab with h1 | ⟨h1, h1d⟩ <;> rcases hbc with h2 | ⟨h2, h2d⟩
  · exact Or.inl (lt_trans h1 h2)
  · exact Or.inl (h2 ▸ h1)
  · exact Or.inl (h1 ▸ h2)
  · exact Or.inr ⟨h1.trans h2, le_trans h1d h2d⟩

theorem mktLe_total (a b : MktRow) : (mktLe a b || mktLe b a) = true := by
  rw [Bool.or_eq_true, mktLe_iff, mktLe_iff]
  rcases lt_trichotomy a.symbol b.symbol with h | h | h
  · exact Or.inl (Or.inl h)
  · rcases Nat.le_total a.date b.date with hd | hd
    · exact Or.inl (Or.inr ⟨h, hd⟩)
    · exact Or.inr (Or.inr ⟨h.symm, hd⟩)
  · exact Or.inr (Or.inl h)

theorem sameKey_of_le_le (a b : MktRow) (h1 : mktLe a b = true) (h2 : mktLe b a = true) :
    sameKey a b = true := by
  rw [mktLe_iff] at h1 h2
  rw [sameKey_iff]
  rcases h1 with h1 | ⟨h1, h1d⟩ <;> rcases h2 with h2 | ⟨h2, h2d⟩
  · exact absurd h2 (lt_asymm h1)
  · exact absurd h1 (by rw [h2]; exact lt_irrefl _)
  · exact absurd h2 (by rw [h1]; exact lt_irrefl _)
  · exact ⟨h1, le_antisymm h1d h2d⟩

theorem le_of_sameKey (a b : MktRow) (h : sameKey a b = true) : mktLe a b = true := by
  rw [sameKey_iff] at h
  rw [mktLe_iff]
  exact Or.inr ⟨h.1, le_of_eq h.2⟩

theorem sameKey_symm (a b : MktRow) (h : sameKey a b = true) : sameKey b a = true := by
  rw [sameKey_iff] at h ⊢
  exact ⟨h.1.symm, h.2.symm⟩

theorem sameKey_of_keyMatch (s : String) (d : Nat) (a b : MktRow)
    (ha : keyMatch s d a = true) (hb : keyMatch s d b = true) : sameKey a b = true := by
  rw [keyMatch_iff] at ha hb
  rw [sameKey_iff]
  exact ⟨ha.1.trans hb.1.symm, ha.2.trans hb.2.symm⟩

theorem keyMatch_of_sameKey (s : String) (d : Nat) (a b : MktRow)
    (hk : sameKey a b = true) (ha : keyMatch s d a = true) : keyMatch s d b = true := by
  rw [sameKey_iff] at hk
  rw [keyMatch_iff] at ha ⊢
  exact ⟨hk.1.symm.trans ha.1, hk.2.symm.trans ha.2⟩

theorem groupLast_find_eq (s : String) (d : Nat) :
    ∀ l : List MktRow, l.Pairwise (fun a b => mktLe a b = true) →
      (groupLast l).find? (keyMatch s d) = (l.filter (keyMatch s d)).getLast? := by
  intro l
  induction l with
  | nil => intro _; simp [groupLast]
  | cons a t ih =>
    intro hpw
    obtain ⟨ha, ht⟩ := List.pairwise_cons.mp hpw
    match t with
    | [] =>
      cases hpa : keyMatch s d a
      · simp [groupLast, List.find?, hpa]
      · simp [groupLast, List.find?, hpa]
    | b :: t2 =>
      have ihbt := ih ht
      by_cases hk : sameKey a b = true
      · have hgl : groupLast (a :: b :: t2) = groupLast (b :: t2) := by
          simp [groupLast, hk]
        rw [hgl, ihbt]
        by_cases hpa : keyMatch s d a = true
        · have hpb : keyMatch s d b = true := keyMatch_of_sameKey s d a b hk hpa
          have hfa : (a :: b :: t2).filter (keyMatch s d) =
              a :: b :: t2.filter (keyMatch s d) := by
            rw [List.filter_cons_of_pos hpa, List.filter_cons_of_pos hpb]
          have hfb : (b :: t2).filter (keyMatch s d) = b :: t2.filter (keyMatch s d) :=
            List.filter_cons_of_pos hpb
          rw [hfa, hfb, List.getLast?_cons_cons]
        · have hfa : (a :: b :: t2).filter (keyMatch s d) =
              (b :: t2).filter (keyMatch s d) := List.filter_cons_of_neg hpa
          rw [hfa]
      · have hgl : groupLast (a :: b :: t2) = a :: groupLast (b :: t2) := by
          simp [groupLast, hk]
        rw [hgl]
        by_cases hpa : keyMatch s d a = true
        · have hnone : ∀ x ∈ b :: t2, ¬ keyMatch s d x = true := by
            intro x hx hmx
            have hax : sameKey a x = true := sameKey_of_keyMatch s d a x hpa hmx
            rcases List.mem_cons.mp hx with rfl | hx2
            · exact hk hax
            · have hab : mktLe a b = true := ha b (List.mem_cons_self _ _)
              have hbx : mktLe b x = true := (List.pairwise_cons.mp ht).1 x hx2
              have hxa : mktLe x a = true := le_of_sameKey x a (sameKey_symm a x hax)
              have hba : mktLe b a = true := mktLe_trans b x a hbx hxa
              exact hk (sameKey_of_le_le a b hab hba)
          have hfe : (b :: t2).filter (keyMatch s d) = [] := by
            rw [List.filter_eq_nil_iff]
            exact fun x hx hc => hnone x hx hc
          have hfa : (a :: b :: t2).filter (keyMatch s d) = [a] := by
            rw [List.filter_cons_of_pos hpa, hfe]
          rw [List.find?_cons_of_pos _ hpa, hfa]
          rfl
        · have hfa : (a :: b :: t2).filter (keyMatch s d) =
              (b :: t2).filter (keyMatch s d) := List.filter_cons_of_neg hpa
          rw [List.find?_cons_of_neg _ hpa, hfa, ihbt]

theorem filter_mergeSort_key (market : List MktRow) (s : String) (d : Nat) :
    (market.mergeSort mktLe).filter (keyMatch s d) = market.filter (keyMatch s d) := by
  have hpw : (market.filter (keyMatch s d)).Pairwise (fun a b => mktLe a b = true) :=
    List.pairwise_of_forall_mem_list (fun a hha b hhb =>
      le_of_sameKey a b
        (sameKey_of_keyMatch s d a b (List.of_mem_filter hha) (List.of_mem_filter hhb)))
  have hsub : (market.filter (keyMatch s d)).Sublist (market.mergeSort mktLe) :=
    List.sublist_mergeSort mktLe_trans mktLe_total hpw (List.filter_sublist market)
  have hsub2 : (market.filter (keyMatch s d)).Sublist
      ((market.mergeSort mktLe).filter (keyMatch s d)) := by
    have h2 := List.Sublist.filter (keyMatch s d) hsub
    rwa [List.filter_eq_self.mpr (fun x hhx => List.of_mem_filter hhx)] at h2
  have hlen : ((market.mergeSort mktLe).filter (keyMatch s d)).length =
      (market.filter (keyMatch s d)).length :=
    ((market.mergeSort_perm mktLe).filter (keyMatch s d)).length_eq
  exact (hsub2.eq_of_length hlen.symm).symm

/-- Claim C5: for a market dataset with duplicate rows for the same
(symbol, date) pair, the reduced `last_close` table that the valuation join
consults yields, for every key, exactly the close of whichever duplicate row is
last in the supplied input sequence — the stable sort by (symbol, date) keeps
equal keys in input order and `groupby(...).last()` takes the final one. -/
theorem duplicate_market_rows_last_close_wins (market : List MktRow) (s : String) (d : Nat) :
    lookupClose (lastCloseTable market) s d =
      ((market.filter (keyMatch s d)).getLast?).map MktRow.close := by
  have hsorted : (market.mergeSort mktLe).Pairwise (fun a b => mktLe a b = true) :=
    List.sorted_mergeSort mktLe_trans mktLe_total market
  unfold lookupClose lastCloseTable
  rw [groupLast_find_eq s d _ hsorted, filter_mergeSort_key]

/-- Claim C4: the combined fingerprint of two input paths with fixed byte
contents does not depend on the order in which the paths are supplied, because
`fingerprint_inputs` sorts the paths before combining the per-file digests. -/
theorem fingerprint_order_independence (sha256hex hash_file : String → String)
    (a b : String) :
    fingerprint_inputs sha256hex hash_file [a, b] =
      fingerprint_inputs sha256hex hash_file [b, a] := by
  have htr : ∀ x y z : String,
      decide (x ≤ y) = true → decide (y ≤ z) = true → decide (x ≤ z) = true := by
    intro x y z h1 h2
    exact decide_eq_true (le_trans (of_decide_eq_true h1) (of_decide_eq_true h2))
  have hto : ∀ x y : String, (decide (x ≤ y) || decide (y ≤ x)) = true := by
    intro x y
    rcases le_total x y with h | h
    · simp [h]
    · simp [h]
  have hsort : ∀ l : List String,
      List.Sorted (fun x y : String => x ≤ y) (l.mergeSort (fun x y => decide (x ≤ y))) := by
    intro l
    exact (List.sorted_mergeSort htr hto l).imp (fun h => of_decide_eq_true h)
  have hms : ([a, b].mergeSort (fun x y => decide (x ≤ y))) =
      ([b, a].mergeSort (fun x y => decide (x ≤ y))) := by
    apply List.eq_of_perm_of_sorted (r := fun x y : String => x ≤ y)
    · exact ((List.mergeSort_perm [a, b] _).trans (List.Perm.swap b a [])).trans
        (List.mergeSort_perm [b, a] _).symm
    · exact hsort [a, b]
    · exact hsort [b, a]
  unfold fingerprint_inputs
  rw [hms]

/-- Claim C2: on a fresh key the change detector reports a change and persists
the fingerprint; an immediately following call with the same fingerprint
reports no change and leaves the state untouched; a later call with a
different fingerprint reports a change and persists the new fingerprint.  The
hypotheses `fp ≠ ""` and `pyStrip fp = fp` hold of every fingerprint the
component handles (a nonempty hex digest with no surrounding whitespace); they
matter because a missing state file reads as `""` and the stored file is
stripped on read. -/
theorem change_detection_cycle (st : ChangeState) (k fp fp2 : String)
    (hfresh : List.lookup k st = none) (hfp : fp ≠ "") (htrim : pyStrip fp = fp)
    (hne : fp2 ≠ fp) :
    (was_data_changed fp k st).1 = true ∧
    List.lookup k (was_data_changed fp k st).2 = some fp ∧
    (was_data_changed fp k (was_data_changed fp k st).2).1 = false ∧
    (was_data_changed fp k (was_data_changed fp k st).2).2 = (was_data_changed fp k st).2 ∧
    (was_data_changed fp2 k (was_data_changed fp k st).2).1 = true ∧
    List.lookup k (was_data_changed fp2 k (was_data_changed fp k st).2).2 = some fp2 := by
  have hch1 : ("" != fp) = true := bne_iff_ne.mpr (Ne.symm hfp)
  have h1 : was_data_changed fp k st = (true, (k, fp) :: st) := by
    simp [was_data_changed, storedFingerprint, hfresh, hch1]
  have hlk : List.lookup k ((k, fp) :: st) = some fp := by
    simp [List.lookup]
  have h2 : was_data_changed fp k ((k, fp) :: st) = (false, (k, fp) :: st) := by
    simp [was_data_changed, storedFingerprint, hlk, htrim]
  have hch2 : (fp != fp2) = true := bne_iff_ne.mpr (Ne.symm hne)
  have h3 : was_data_changed fp2 k ((k, fp) :: st) = (true, (k, fp2) :: (k, fp) :: st) := by
    simp [was_data_changed, storedFingerprint, hlk, htrim, hch2]
  refine ⟨by rw [h1], by rw [h1]; exact hlk, by rw [h1, h2], by rw [h1, h2],
    by rw [h1, h3], by rw [h1, h3]; simp [List.lookup]⟩

/-- Closed instance of `change_detection_cycle`: a fresh key in an empty state
directory, fingerprint "abc", then "def". -/
theorem change_detection_cycle_witness :
    (was_data_changed "abc" "tx+mkt" []).1 = true ∧
    List.lookup "tx+mkt" (was_data_changed "abc" "tx+mkt" []).2 = some "abc" ∧
    (was_data_changed "abc" "tx+mkt" (was_data_changed "abc" "tx+mkt" []).2).1 = false ∧
    (was_data_changed "abc" "tx+mkt" (was_data_changed "abc" "tx+mkt" []).2).2 =
      (was_data_changed "abc" "tx+mkt" []).2 ∧
    (was_data_changed "def" "tx+mkt" (was_data_changed "abc" "tx+mkt" []).2).1 = true ∧
    List.lookup "tx+mkt"
      (was_data_changed "def" "tx+mkt" (was_data_changed "abc" "tx+mkt" []).2).2 =
      some "def" :=
  change_detection_cycle [] "tx+mkt" "abc" "def" rfl (by decide) (by decide) (by decide)

theorem dateLe_trans (a b c : Nat) (h1 : dateLe a b = true) (h2 : dateLe b c = true) :
    dateLe a c = true :=
  decide_eq_true (le_trans (of_decide_eq_true h1) (of_decide_eq_true h2))

theorem dateLe_total (a b : Nat) : (dateLe a b || dateLe b a) = true := by
  rcases Nat.le_total a b with h | h <;> simp [dateLe, h]

/-- Claim C1: the valuation series has exactly one row per distinct transaction
date (its dates are strictly increasing and are exactly the dates occurring in
the transaction rows), each row's `portfolio_value` is the sum of the
(defaulted) `shares * close` products — `position_value` — over the
transaction rows of that date, and an empty transaction dataset yields the
empty series (the embedding is total, so no error is raised). -/
theorem valuation_series_correct (tx : TxFrame) (market : MktFrame)
    (tx_hash mkt_hash : String) :
    ((compute_portfolio_valuation tx market tx_hash mkt_hash).1.map Prod.fst).Pairwise (· < ·) ∧
    (∀ dd : Nat,
      dd ∈ (compute_portfolio_valuation tx market tx_hash mkt_hash).1.map Prod.fst ↔
      dd ∈ tx.rows.map TxRow.date) ∧
    (∀ p ∈ (compute_portfolio_valuation tx market tx_hash mkt_hash).1,
      p.2 = ((tx.rows.filter (fun r => r.date == p.1)).map
        (position_value tx market.rows)).sum) ∧
    (tx.rows = [] → (compute_portfolio_valuation tx market tx_hash mkt_hash).1 = []) := by
  have hout : (compute_portfolio_valuation tx market tx_hash mkt_hash).1 =
      (((tx.rows.map TxRow.date).dedup).mergeSort dateLe).map
        (fun dd => (dd,
          (((tx.rows.map (fun r => (r.date, position_value tx market.rows r))).filter
              (fun x => x.1 == dd)).map Prod.snd).sum)) := rfl
  have hfst : (compute_portfolio_valuation tx market tx_hash mkt_hash).1.map Prod.fst =
      ((tx.rows.map TxRow.date).dedup).mergeSort dateLe := by
    rw [hout, List.map_map]
    exact List.map_id _
  refine ⟨?_, ?_, ?_, ?_⟩
  · rw [hfst]
    have hsorted : (((tx.rows.map TxRow.date).dedup).mergeSort dateLe).Pairwise
        (fun a b => dateLe a b = true) :=
      List.sorted_mergeSort dateLe_trans dateLe_total _
    have hnodup : (((tx.rows.map TxRow.date).dedup).mergeSort dateLe).Nodup :=
      (((tx.rows.map TxRow.date).dedup).mergeSort_perm dateLe).symm.nodup
        (List.nodup_dedup _)
    exact (hsorted.and hnodup).imp
      (fun h => lt_of_le_of_ne (of_decide_eq_true h.1) h.2)
  · intro dd
    rw [hfst]
    simp [List.mem_mergeSort, List.mem_dedup]
  · intro p hp
    rw [hout] at hp
    obtain ⟨dd, _, rfl⟩ := List.mem_map.mp hp
    show (((tx.rows.map (fun r => (r.date, position_value tx market.rows r))).filter
        (fun x => x.1 == dd)).map Prod.snd).sum = _
    rw [List.filter_map, List.map_map]
    rfl
  · intro h
    rw [hout, h]
    simp

/-- Closed instance of `valuation_series_correct` at the concrete example
frames. -/
theorem valuation_series_correct_witness :
    ((compute_portfolio_valuation txExample mktExample "txh" "mkth").1.map
      Prod.fst).Pairwise (· < ·) ∧
    (∀ dd : Nat,
      dd ∈ (compute_portfolio_valuation txExample mktExample "txh" "mkth").1.map Prod.fst ↔
      dd ∈ txExample.rows.map TxRow.date) ∧
    (∀ p ∈ (compute_portfolio_valuation txExample mktExample "txh" "mkth").1,
      p.2 = ((txExample.rows.filter (fun r => r.date == p.1)).map
        (position_value txExample mktExample.rows)).sum) ∧
    (txExample.rows = [] →
      (compute_portfolio_valuation txExample mktExample "txh" "mkth").1 = []) :=
  valuation_series_correct txExample mktExample "txh" "mkth"

/-- Claim C6: a transactions frame without a `symbol` column has every row
assigned the sentinel symbol "CASH"; a frame without a `shares` column has
every row's shares defaulted to 0, so the row's `position_value` — its
contribution to its date's total — is 0. -/
theorem missing_columns_defaults (tx : TxFrame) (market : List MktRow) (r : TxRow) :
    (tx.hasSymbol = false → symbolCol tx r = "CASH") ∧
    (tx.hasShares = false →
      sharesCol tx r = some 0 ∧ position_value tx market r = 0) := by
  refine ⟨fun h => ?_, fun h => ⟨?_, ?_⟩⟩
  · simp [symbolCol, h]
  · simp [sharesCol, h]
  · simp [position_value, sharesCol, h]

/-- Closed instance of `missing_columns_defaults`: the spec's example row
`{date: 2024-01-03, amount: 20}` gets symbol "CASH" and contributes 0. -/
theorem missing_columns_defaults_witness :
    symbolCol txNoCols rowNoCols = "CASH" ∧ position_value txNoCols [] rowNoCols = 0 :=
  ⟨(missing_columns_defaults txNoCols [] rowNoCols).1 rfl,
   ((missing_columns_defaults txNoCols [] rowNoCols).2 rfl).2⟩

/-- Claim C7: a transaction row whose (symbol, date) key matches no row of the
reduced market table is valued with the default close price 1.0 — its position
value is its (defaulted) shares times 1.  The embedding is total, so the
unmatched path raises no error. -/
theorem unmatched_row_default_close (tx : TxFrame) (market : List MktRow) (r : TxRow)
    (h : ∀ m ∈ lastCloseTable market, keyMatch (symbolCol tx r) r.date m = false) :
    position_value tx market r = (sharesCol tx r).getD 0 * 1 := by
  have hfind : (lastCloseTable market).find? (keyMatch (symbolCol tx r) r.date) = none := by
    rw [List.find?_eq_none]
    intro x hx
    simp [h x hx]
  simp [position_value, lookupClose, hfind]

/-- Closed instance of `unmatched_row_default_close`: the spec's example row
`{date: 2024-01-02, symbol: "AAPL", shares: 5}` against a market with no
matching row is valued `5 * 1.0`. -/
theorem unmatched_row_default_close_witness :
    (∀ m ∈ lastCloseTable [], keyMatch (symbolCol txC7 rowC7) rowC7.date m = false) ∧
    position_value txC7 [] rowC7 = 5 * 1 := by
  have h : ∀ m ∈ lastCloseTable [], keyMatch (symbolCol txC7 rowC7) rowC7.date m = false := by
    intro m hm
    simp [lastCloseTable, groupLast, List.mergeSort_nil] at hm
  exact ⟨h, unmatched_row_default_close txC7 [] rowC7 h⟩

/-- Claim C8 as stated is false: `compute_portfolio_valuation` is not free of
side effects on its inputs.  `market["date"] = pd.to_datetime(market["date"])`
(line 69) converts the caller's market frame's date column in place — on a
freshly loaded market frame the object after the call differs from the one
passed in. -/
theorem valuation_mutates_market_counterexample :
    (compute_portfolio_valuation txExample mktExample "h1" "h2").2.2 ≠ mktExample := by
  intro h
  have hb := congrArg MktFrame.dateIsDatetime h
  simp [compute_portfolio_valuation, mktExample] at hb

/-- Claim C8 amended: `fingerprint_inputs` and `compute_portfolio_valuation`
are deterministic, and the valuation stage leaves the transactions input
untouched (it operates on a copy, line 67); its only effect on its inputs is
the in-place conversion of the market frame's date column to datetime dtype
(line 69), which preserves the market rows' data.  In particular a repeated
call — on the market frame as left by the first call — returns an identical
series. -/
theorem valuation_frame_effects (tx : TxFrame) (market : MktFrame)
    (tx_hash mkt_hash : String) :
    (compute_portfolio_valuation tx market tx_hash mkt_hash).2.1 = tx ∧
    (compute_portfolio_valuation tx market tx_hash mkt_hash).2.2 =
      { market with dateIsDatetime := true } ∧
    (compute_portfolio_valuation tx market tx_hash mkt_hash).2.2.rows = market.rows ∧
    (compute_portfolio_valuation tx
        (compute_portfolio_valuation tx market tx_hash mkt_hash).2.2
        tx_hash mkt_hash).1 =
      (compute_portfolio_valuation tx market tx_hash mkt_hash).1 :=
  ⟨rfl, rfl, rfl, rfl⟩

theorem quality_pass (n : Nat) (q : ℚ) (hn : 50 ≤ n) (hq : q ≤ 1/5) :
    data_quality_check n q 50 = (true, "ok") := by
  unfold data_quality_check
  rw [if_neg (by omega), if_neg (not_lt.mpr hq)]

/-- Claim C3: with require-change gating enabled and the stored fingerprint
equal to the computed one (as read back by the detector), the flow run returns
"skipped (no change)" and is a no-op on the on-disk state: the state directory
and the persisted output are exactly as before.  The conclusion holds for
either value of `downstreamOk`, i.e. the valuation stage is never reached. -/
theorem pipeline_skip_noop (tx : TxFrame) (market : MktFrame)
    (fingerprint tx_hash mkt_hash state_key : String) (downstreamOk : Bool)
    (st : PipelineState)
    (hqt : 50 ≤ tx.rows.length) (hqn : txNaFrac tx ≤ 1/5)
    (hqm : 50 ≤ market.rows.length)
    (hstored : storedFingerprint st.changeState state_key = fingerprint) :
    advanced_data_pipeline tx market fingerprint tx_hash mkt_hash state_key true
      downstreamOk st = (Except.ok "skipped (no change)", st) := by
  have hwc : was_data_changed fingerprint state_key st.changeState =
      (false, st.changeState) := by
    simp [was_data_changed, hstored]
  have hq1 : data_quality_check tx.rows.length (txNaFrac tx) 50 = (true, "ok") :=
    quality_pass _ _ hqt hqn
  have hq2 : data_quality_check market.rows.length (mktNaFrac market) 50 = (true, "ok") :=
    quality_pass _ _ hqm (by norm_num [mktNaFrac])
  simp [advanced_data_pipeline, hq1, hq2, hwc]

/-- Closed instance of `pipeline_skip_noop`: the example frames, fingerprint
"abc" already stored for key "tx+mkt". -/
theorem pipeline_skip_noop_witness :
    50 ≤ txExample.rows.length ∧ txNaFrac txExample ≤ 1/5 ∧
    50 ≤ mktExample.rows.length ∧
    storedFingerprint stExample.changeState "tx+mkt" = "abc" ∧
    advanced_data_pipeline txExample mktExample "abc" "h1" "h2" "tx+mkt" true true
      stExample = (Except.ok "skipped (no change)", stExample) := by
  have h1 : 50 ≤ txExample.rows.length := by simp [txExample]
  have h2 : txNaFrac txExample ≤ 1/5 := by
    norm_num [txNaFrac, txColCount, txExample]
  have h3 : 50 ≤ mktExample.rows.length := by simp [mktExample]
  have h4 : storedFingerprint stExample.changeState "tx+mkt" = "abc" := by decide
  exact ⟨h1, h2, h3, h4,
    pipeline_skip_noop txExample mktExample "abc" "h1" "h2" "tx+mkt" true stExample
      h1 h2 h3 h4⟩

/-- Claim C10: when gating is enabled and a change is detected, the new
fingerprint is persisted to the state directory before the valuation stage
runs and is never rolled back — after a run whose downstream (valuation /
persistence) stage fails, the state holds the new fingerprint while the
persisted output is untouched, and a subsequent run over the same unchanged
inputs returns "skipped (no change)" without producing any output. -/
theorem fingerprint_persisted_despite_failure (tx : TxFrame) (market : MktFrame)
    (fingerprint tx_hash mkt_hash state_key : String) (st : PipelineState)
    (onext : Bool)
    (hqt : 50 ≤ tx.rows.length) (hqn : txNaFrac tx ≤ 1/5)
    (hqm : 50 ≤ market.rows.length)
    (hchanged : storedFingerprint st.changeState state_key ≠ fingerprint)
    (htrim : pyStrip fingerprint = fingerprint) :
    (advanced_data_pipeline tx market fingerprint tx_hash mkt_hash state_key true
      false st).1 = Except.error "downstream failure" ∧
    (advanced_data_pipeline tx market fingerprint tx_hash mkt_hash state_key true
      false st).2.changeState = (state_key, fingerprint) :: st.changeState ∧
    (advanced_data_pipeline tx market fingerprint tx_hash mkt_hash state_key true
      false st).2.portfolioOut = st.portfolioOut ∧
    advanced_data_pipeline tx market fingerprint tx_hash mkt_hash state_key true
        onext
        (advanced_data_pipeline tx market fingerprint tx_hash mkt_hash state_key
          true false st).2 =
      (Except.ok "skipped (no change)",
       (advanced_data_pipeline tx market fingerprint tx_hash mkt_hash state_key
         true false st).2) := by
  have hq1 : data_quality_check tx.rows.length (txNaFrac tx) 50 = (true, "ok") :=
    quality_pass _ _ hqt hqn
  have hq2 : data_quality_check market.rows.length (mktNaFrac market) 50 = (true, "ok") :=
    quality_pass _ _ hqm (by norm_num [mktNaFrac])
  have hwc : was_data_changed fingerprint state_key st.changeState =
      (true, (state_key, fingerprint) :: st.changeState) := by
    simp [was_data_changed, bne_iff_ne.mpr hchanged]
  have h1 : advanced_data_pipeline tx market fingerprint tx_hash mkt_hash state_key
      true false st =
      (Except.error "downstream failure",
       { st with changeState := (state_key, fingerprint) :: st.changeState }) := by
    simp [advanced_data_pipeline, hq1, hq2, hwc, runValuation]
  have hstored1 : storedFingerprint ((state_key, fingerprint) :: st.changeState)
      state_key = fingerprint := by
    simp [storedFingerprint, List.lookup, htrim]
  have hwc2 : was_data_changed fingerprint state_key
      ((state_key, fingerprint) :: st.changeState) =
      (false, (state_key, fingerprint) :: st.changeState) := by
    simp [was_data_changed, hstored1]
  have h2 : advanced_data_pipeline tx market fingerprint tx_hash mkt_hash state_key
      true onext
      { st with changeState := (state_key, fingerprint) :: st.changeState } =
      (Except.ok "skipped (no change)",
       { st with changeState := (state_key, fingerprint) :: st.changeState }) := by
    simp [advanced_data_pipeline, hq1, hq2, hwc2]
  exact ⟨by rw [h1], by rw [h1], by rw [h1], by rw [h1]; exact h2⟩

/-- Closed instance of `fingerprint_persisted_despite_failure`: example frames,
an empty state directory (fresh key), fingerprint "abc", failing downstream
stage, then a second run with a succeeding downstream stage. -/
theorem fingerprint_persisted_despite_failure_witness :
    50 ≤ txExample.rows.length ∧ txNaFrac txExample ≤ 1/5 ∧
    50 ≤ mktExample.rows.length ∧
    storedFingerprint stFresh.changeState "tx+mkt" ≠ "abc" ∧
    pyStrip "abc" = "abc" ∧
    ((advanced_data_pipeline txExample mktExample "abc" "h1" "h2" "tx+mkt" true
      false stFresh).1 = Except.error "downstream failure" ∧
    (advanced_data_pipeline txExample mktExample "abc" "h1" "h2" "tx+mkt" true
      false stFresh).2.changeState = ("tx+mkt", "abc") :: stFresh.changeState ∧
    (advanced_data_pipeline txExample mktExample "abc" "h1" "h2" "tx+mkt" true
      false stFresh).2.portfolioOut = stFresh.portfolioOut ∧
    advanced_data_pipeline txExample mktExample "abc" "h1" "h2" "tx+mkt" true true
        (advanced_data_pipeline txExample mktExample "abc" "h1" "h2" "tx+mkt" true
          false stFresh).2 =
      (Except.ok "skipped (no change)",
       (advanced_data_pipeline txExample mktExample "abc" "h1" "h2" "tx+mkt" true
         false stFresh).2)) := by
  have h1 : 50 ≤ txExample.rows.length := by simp [txExample]
  have h2 : txNaFrac txExample ≤ 1/5 := by
    norm_num [txNaFrac, txColCount, txExample]
  have h3 : 50 ≤ mktExample.rows.length := by simp [mktExample]
  have h4 : storedFingerprint stFresh.changeState "tx+mkt" ≠ "abc" := by decide
  have h5 : pyStrip "abc" = "abc" := by decide
  exact ⟨h1, h2, h3, h4, h5,
    fingerprint_persisted_despite_failure txExample mktExample "abc" "h1" "h2"
      "tx+mkt" stFresh true h1 h2 h3 h4 h5⟩

/-- Claim C9: with the prescribed (result, expiry) cache over the source's
cache key and 12-hour TTL, a second invocation with the same cache key within
the TTL window returns the stored result bit-for-bit, leaves the cache alone
and does not recompute the join (the compute counter is unchanged); an
invocation after the TTL has lapsed recomputes (the counter increases) even
though the fingerprints — and hence the underlying files — are unchanged. -/
theorem valuation_cache_ttl (tx : TxFrame) (market : MktFrame)
    (tx_hash mkt_hash : String) (t0 t1 t2 n0 : Nat) (cache0 : CacheStore)
    (hmiss : List.lookup (valuation_cache_key tx_hash mkt_hash) cache0 = none)
    (hwithin : t1 < t0 + CACHE_EXPIRATION_SECONDS)
    (hlapsed : t0 + CACHE_EXPIRATION_SECONDS ≤ t2) :
    (cached_compute_portfolio_valuation tx market tx_hash mkt_hash t0 cache0 n0).2.2 =
      n0 + 1 ∧
    (cached_compute_portfolio_valuation tx market tx_hash mkt_hash t1
      (cached_compute_portfolio_valuation tx market tx_hash mkt_hash t0 cache0 n0).2.1
      (cached_compute_portfolio_valuation tx market tx_hash mkt_hash t0 cache0 n0).2.2).1 =
      (cached_compute_portfolio_valuation tx market tx_hash mkt_hash t0 cache0 n0).1 ∧
    (cached_compute_portfolio_valuation tx market tx_hash mkt_hash t1
      (cached_compute_portfolio_valuation tx market tx_hash mkt_hash t0 cache0 n0).2.1
      (cached_compute_portfolio_valuation tx market tx_hash mkt_hash t0 cache0 n0).2.2).2.2 =
      (cached_compute_portfolio_valuation tx market tx_hash mkt_hash t0 cache0 n0).2.2 ∧
    (cached_compute_portfolio_valuation tx market tx_hash mkt_hash t2
      (cached_compute_portfolio_valuation tx market tx_hash mkt_hash t0 cache0 n0).2.1
      (cached_compute_portfolio_valuation tx market tx_hash mkt_hash t0 cache0 n0).2.2).2.2 =
      (cached_compute_portfolio_valuation tx market tx_hash mkt_hash t0 cache0 n0).2.2 + 1 := by
  have h1 : cached_compute_portfolio_valuation tx market tx_hash mkt_hash t0 cache0 n0 =
      ((compute_portfolio_valuation tx market tx_hash mkt_hash).1,
       (valuation_cache_key tx_hash mkt_hash,
        ((compute_portfolio_valuation tx market tx_hash mkt_hash).1,
         t0 + CACHE_EXPIRATION_SECONDS)) :: cache0,
       n0 + 1) := by
    simp [cached_compute_portfolio_valuation, hmiss]
  have hlk : List.lookup (valuation_cache_key tx_hash mkt_hash)
      ((valuation_cache_key tx_hash mkt_hash,
        ((compute_portfolio_valuation tx market tx_hash mkt_hash).1,
         t0 + CACHE_EXPIRATION_SECONDS)) :: cache0) =
      some ((compute_portfolio_valuation tx market tx_hash mkt_hash).1,
        t0 + CACHE_EXPIRATION_SECONDS) := by
    simp [List.lookup]
  have h2 : cached_compute_portfolio_valuation tx market tx_hash mkt_hash t1
      ((valuation_cache_key tx_hash mkt_hash,
        ((compute_portfolio_valuation tx market tx_hash mkt_hash).1,
         t0 + CACHE_EXPIRATION_SECONDS)) :: cache0) (n0 + 1) =
      ((compute_portfolio_valuation tx market tx_hash mkt_hash).1,
       (valuation_cache_key tx_hash mkt_hash,
        ((compute_portfolio_valuation tx market tx_hash mkt_hash).1,
         t0 + CACHE_EXPIRATION_SECONDS)) :: cache0,
       n0 + 1) := by
    simp [cached_compute_portfolio_valuation, hlk, hwithin]
  have h3 : (cached_compute_portfolio_valuation tx market tx_hash mkt_hash t2
      ((valuation_cache_key tx_hash mkt_hash,
        ((compute_portfolio_valuation tx market tx_hash mkt_hash).1,
         t0 + CACHE_EXPIRATION_SECONDS)) :: cache0) (n0 + 1)).2.2 = n0 + 1 + 1 := by
    simp [cached_compute_portfolio_valuation, hlk, Nat.not_lt.mpr hlapsed]
  refine ⟨by rw [h1], ?_, ?_, ?_⟩
  · rw [h1]
    rw [h2]
  · rw [h1]
    rw [h2]
  · rw [h1]
    exact h3

/-- Closed instance of `valuation_cache_ttl`: empty cache, calls at t = 0,
t = 1 (within the 12-hour TTL) and t = 43200 (TTL lapsed). -/
theorem valuation_cache_ttl_witness :
    List.lookup (valuation_cache_key "h1" "h2") ([] : CacheStore) = none ∧
    1 < 0 + CACHE_EXPIRATION_SECONDS ∧ 0 + CACHE_EXPIRATION_SECONDS ≤ 43200 ∧
    ((cached_compute_portfolio_valuation txExample mktExample "h1" "h2" 0 [] 0).2.2 =
      0 + 1 ∧
    (cached_compute_portfolio_valuation txExample mktExample "h1" "h2" 1
      (cached_compute_portfolio_valuation txExample mktExample "h1" "h2" 0 [] 0).2.1
      (cached_compute_portfolio_valuation txExample mktExample "h1" "h2" 0 [] 0).2.2).1 =
      (cached_compute_portfolio_valuation txExample mktExample "h1" "h2" 0 [] 0).1 ∧
    (cached_compute_portfolio_valuation txExample mktExample "h1" "h2" 1
      (cached_compute_portfolio_valuation txExample mktExample "h1" "h2" 0 [] 0).2.1
      (cached_compute_portfolio_valuation txExample mktExample "h1" "h2" 0 [] 0).2.2).2.2 =
      (cached_compute_portfolio_valuation txExample mktExample "h1" "h2" 0 [] 0).2.2 ∧
    (cached_compute_portfolio_valuation txExample mktExample "h1" "h2" 43200
      (cached_compute_portfolio_valuation txExample mktExample "h1" "h2" 0 [] 0).2.1
      (cached_compute_portfolio_valuation txExample mktExample "h1" "h2" 0 [] 0).2.2).2.2 =
      (cached_compute_portfolio_valuation txExample mktExample "h1" "h2" 0 [] 0).2.2 + 1) := by
  refine ⟨rfl, by norm_num [CACHE_EXPIRATION_SECONDS], by norm_num [CACHE_EXPIRATION_SECONDS], ?_⟩
  exact valuation_cache_ttl txExample mktExample "h1" "h2" 0 1 43200 0 [] rfl
    (by norm_num [CACHE_EXPIRATION_SECONDS]) (by norm_num [CACHE_EXPIRATION_SECONDS])
